import Mathlib

/-!
Shallow embedding of the `tt` todo manager (src/models/todo.rs and
src/todo_manager.rs).

Modelling conventions:
- Rust `u8` priority is a `Nat`; the u8 range bound `< 256` appears as an
  explicit hypothesis where it matters (serialization round trips).
- Rust errors are `Result<_, String>` whose messages are produced by a fixed
  set of format strings; we embed them as the structured type `TTError`, each
  constructor corresponding injectively to one Rust format string:
    TTError.validation p  = "Priority must be between 1 and 4, got {p}"
    TTError.notFound id   = "Todo with id {id} not found"
    TTError.parse msg     = "Failed to parse JSON: {msg}" (serde_json errors)
- Mutating manager methods on `&mut self` become functions from the todo list
  to a pair (result, new todo list); when the Rust method returns `Err` after
  having already mutated `self` (as `edit_todo` does with the title), the
  returned list reflects that mutation.
- Persistence: `serde_json::to_string_pretty` followed by `from_str` is the
  identity on the underlying JSON value, so the store file is modelled at the
  JSON-value level (`Json` below). Filesystem effects (directory creation,
  permissions, I/O faults) are outside the value-level model; a present file
  is `some (j : Json)`, an absent one `none`.
-/

/-- Structured embedding of the Rust `String` error messages (see header). -/
inductive TTError where
  | validation (p : Nat)
  | notFound (id : Nat)
  | parse (msg : String)
deriving Repr, DecidableEq

/-- `Todo` record from src/models/todo.rs: title, completed, created_at
(ISO 8601 string), priority (u8, 1-4, 1 highest). -/
structure Todo where
  title : String
  completed : Bool
  created_at : String
  priority : Nat
deriving Repr, DecidableEq

/-- `default_priority` from src/models/todo.rs: 4, the lowest priority,
used for backward compatibility when the stored field is absent. -/
def default_priority : Nat := 4

/-- `Todo::validate_priority`: ok iff the priority is in 1..=4. -/
def Todo.validate_priority (priority : Nat) : Except TTError Unit :=
  if ¬(1 ≤ priority ∧ priority ≤ 4) then
    .error (.validation priority)
  else
    .ok ()

/-- `Todo::new(title, priority)`: validates the priority, then builds the
record with `completed = false` and `created_at = now`. The clock is passed
explicitly as the `now` argument. -/
def Todo.new (now title : String) (priority : Nat) : Except TTError Todo :=
  match Todo.validate_priority priority with
  | .error e => .error e
  | .ok _ => .ok { title := title, completed := false,
                   created_at := now, priority := priority }

/-- `Todo::toggle_completed`: flips the completed flag in place. -/
def Todo.toggle_completed (t : Todo) : Todo :=
  { t with completed := !t.completed }

/-- `Todo::set_completed(value)`: sets the completed flag. -/
def Todo.set_completed (t : Todo) (value : Bool) : Todo :=
  { t with completed := value }

/-- `Todo::set_priority(priority)`: re-validates; on success mutates the
priority, on failure leaves the record unchanged. -/
def Todo.set_priority (t : Todo) (priority : Nat) : Except TTError Todo :=
  match Todo.validate_priority priority with
  | .error e => .error e
  | .ok _ => .ok { t with priority := priority }

/-- Placeholder record used only to total `List.getD` lookups at indices the
code has already bounds-checked. -/
def dummyTodo : Todo :=
  { title := "", completed := false, created_at := "", priority := default_priority }

namespace TodoManager

/-- `TodoManager::add_todo(title, priority)`: builds the record via
`Todo::new` (which validates), pushes it, returns a clone of it. On
validation failure the list is untouched. -/
def add_todo (todos : List Todo) (now title : String) (priority : Nat) :
    Except TTError Todo × List Todo :=
  match Todo.new now title priority with
  | .error e => (.error e, todos)
  | .ok todo => (.ok todo, todos ++ [todo])

/-- `TodoManager::edit_todo(id, title, priority)`: bounds-checks first,
then assigns the new title (if given) directly into the record, then calls
`set_priority` (if given). Note the title assignment happens before
priority validation, so a failing priority leaves the new title in place,
exactly as the Rust code does. -/
def edit_todo (todos : List Todo) (id : Nat)
    (title : Option String) (priority : Option Nat) :
    Except TTError Unit × List Todo :=
  if id ≥ todos.length then
    (.error (.notFound id), todos)
  else
    let todos1 :=
      match title with
      | some newTitle => todos.set id { todos.getD id dummyTodo with title := newTitle }
      | none => todos
    match priority with
    | none => (.ok (), todos1)
    | some p =>
      match (todos1.getD id dummyTodo).set_priority p with
      | .error e => (.error e, todos1)
      | .ok t => (.ok (), todos1.set id t)

/-- `TodoManager::list_todos`: returns a clone of the collection. -/
def list_todos (todos : List Todo) : List Todo :=
  todos

/-- `TodoManager::mark_completed(id)`: bounds-checks, then
`set_completed(true)`. -/
def mark_completed (todos : List Todo) (id : Nat) :
    Except TTError Unit × List Todo :=
  if id ≥ todos.length then
    (.error (.notFound id), todos)
  else
    (.ok (), todos.set id ((todos.getD id dummyTodo).set_completed true))

/-- `TodoManager::mark_incomplete(id)`: bounds-checks, then
`set_completed(false)`. -/
def mark_incomplete (todos : List Todo) (id : Nat) :
    Except TTError Unit × List Todo :=
  if id ≥ todos.length then
    (.error (.notFound id), todos)
  else
    (.ok (), todos.set id ((todos.getD id dummyTodo).set_completed false))

/-- `TodoManager::toggle_completed(id)`: bounds-checks, then flips the flag. -/
def toggle_completed (todos : List Todo) (id : Nat) :
    Except TTError Unit × List Todo :=
  if id ≥ todos.length then
    (.error (.notFound id), todos)
  else
    (.ok (), todos.set id (todos.getD id dummyTodo).toggle_completed)

/-- `TodoManager::delete_todo(id)`: bounds-checks, then `Vec::remove(id)`
(shifting later elements down by one). -/
def delete_todo (todos : List Todo) (id : Nat) :
    Except TTError Unit × List Todo :=
  if id ≥ todos.length then
    (.error (.notFound id), todos)
  else
    (.ok (), todos.eraseIdx id)

/-- `TodoManager::get_todo(id)`: `Vec::get`, read-only. -/
def get_todo (todos : List Todo) (id : Nat) : Option Todo :=
  todos[id]?

end TodoManager

/-! ### The persisted store, at the JSON-value level -/

/-- JSON values, enough for the store file that serde_json reads and writes.
Numbers in the store are integers (the only numeric field is the u8
priority), so `num` carries an `Int`. Objects are ordered key/value lists. -/
inductive Json where
  | null
  | bool (b : Bool)
  | num (n : Int)
  | str (s : String)
  | arr (elems : List Json)
  | obj (fields : List (String × Json))
deriving Repr

/-- Field lookup in a JSON object (first match), `none` on non-objects. -/
def Json.getField (j : Json) (k : String) : Option Json :=
  match j with
  | .obj fields => fields.lookup k
  | _ => none

/-- Serialization of one record, as `#[derive(Serialize)]` emits it: all four
fields present, in declaration order. -/
def toJsonTodo (t : Todo) : Json :=
  .obj [("title", .str t.title), ("completed", .bool t.completed),
        ("created_at", .str t.created_at), ("priority", .num (Int.ofNat t.priority))]

/-- Deserialization of one record, as `#[derive(Deserialize)]` with
`#[serde(default = "default_priority")]` on `priority` behaves: the three
plain fields are required with their types, `priority` defaults to 4 when the
key is absent and otherwise must be an integer fitting in u8 (0..=255).
No further validation happens on load. -/
def fromJsonTodo (j : Json) : Except TTError Todo :=
  match j.getField "title" with
  | some (Json.str title) =>
    match j.getField "completed" with
    | some (Json.bool completed) =>
      match j.getField "created_at" with
      | some (Json.str created_at) =>
        match j.getField "priority" with
        | none =>
          .ok { title := title, completed := completed,
                created_at := created_at, priority := default_priority }
        | some (Json.num n) =>
          if 0 ≤ n ∧ n ≤ 255 then
            .ok { title := title, completed := completed,
                  created_at := created_at, priority := n.toNat }
          else
            .error (.parse "invalid value: integer out of range for u8")
        | some _ => .error (.parse "invalid type for field priority")
      | _ => .error (.parse "missing or invalid field created_at")
    | _ => .error (.parse "missing or invalid field completed")
  | _ => .error (.parse "missing or invalid field title")

/-- Deserialization of the record array, element by element (first error
aborts, as serde does). -/
def fromJsonTodos : List Json → Except TTError (List Todo)
  | [] => .ok []
  | j :: rest =>
    match fromJsonTodo j with
    | .error e => .error e
    | .ok t =>
      match fromJsonTodos rest with
      | .error e => .error e
      | .ok ts => .ok (t :: ts)

/-- Deserialization of the whole `TodoStore`: one required field `todos`
holding the array of records. -/
def fromJsonStore (j : Json) : Except TTError (List Todo) :=
  match j.getField "todos" with
  | some (Json.arr recs) => fromJsonTodos recs
  | some _ => .error (.parse "invalid type for field todos")
  | none => .error (.parse "missing field todos")

namespace TodoManager

/-- `TodoManager::save_to_file`: serializes the whole collection as a
`TodoStore` object. Directory creation, the actual write and the 0o600
permission bits are filesystem effects outside the value-level model. -/
def save_to_file (todos : List Todo) : Json :=
  .obj [("todos", .arr (todos.map toJsonTodo))]

/-- `TodoManager::load_from_file`: an absent file leaves the current (empty
at construction) collection and is not an error; a present file is parsed as
a `TodoStore` and replaces the collection, with parse failures surfaced as
"Failed to parse JSON: {e}". -/
def load_from_file (todos : List Todo) (file : Option Json) :
    Except TTError (List Todo) :=
  match file with
  | none => .ok todos
  | some content =>
    match fromJsonStore content with
    | .error e => .error e
    | .ok loaded => .ok loaded

end TodoManager

/-! ### Traces of public mutating operations (for the priority invariant) -/

/-- One public mutating manager operation with its arguments. -/
inductive Op where
  | add (now title : String) (priority : Nat)
  | edit (id : Nat) (title : Option String) (priority : Option Nat)
  | mark_completed (id : Nat)
  | mark_incomplete (id : Nat)
  | toggle (id : Nat)
  | delete (id : Nat)
deriving Repr, DecidableEq

/-- The collection state after one operation (whether it succeeded or
failed; a failed operation still leaves whatever state the code left). -/
def applyOp (todos : List Todo) : Op → List Todo
  | .add now title p => (TodoManager.add_todo todos now title p).snd
  | .edit id t p => (TodoManager.edit_todo todos id t p).snd
  | .mark_completed id => (TodoManager.mark_completed todos id).snd
  | .mark_incomplete id => (TodoManager.mark_incomplete todos id).snd
  | .toggle id => (TodoManager.toggle_completed todos id).snd
  | .delete id => (TodoManager.delete_todo todos id).snd

/-- The collection state after a sequence of operations. -/
def runOps (todos : List Todo) (ops : List Op) : List Todo :=
  ops.foldl applyOp todos

/-- Every record in the collection has priority in the closed range [1,4]. -/
def PriorityInv (todos : List Todo) : Prop :=
  ∀ t ∈ todos, 1 ≤ t.priority ∧ t.priority ≤ 4

instance (todos : List Todo) : Decidable (PriorityInv todos) := by
  unfold PriorityInv; infer_instance

/-- Frame relation used for the completion-flag operations: `new` has the
same length as `old`, agrees with it away from `i`, and at `i` keeps the
title, priority and creation timestamp. -/
def FrameAt (old new : List Todo) (i : Nat) : Prop :=
  new.length = old.length ∧
  (∀ j, j ≠ i → new[j]? = old[j]?) ∧
  ∃ t t2, old[i]? = some t ∧ new[i]? = some t2 ∧
    t2.title = t.title ∧ t2.priority = t.priority ∧ t2.created_at = t.created_at

/-! ### Helper lemmas -/

theorem validate_priority_ok {p : Nat} (hp : 1 ≤ p ∧ p ≤ 4) :
    Todo.validate_priority p = .ok () := by
  simp [Todo.validate_priority, hp]

theorem validate_priority_error {p : Nat} (hp : ¬(1 ≤ p ∧ p ≤ 4)) :
    Todo.validate_priority p = .error (.validation p) := by
  simp [Todo.validate_priority, hp]

theorem getD_eq_getElem {todos : List Todo} {i : Nat} (hi : i < todos.length) :
    todos.getD i dummyTodo = todos[i] := by
  rw [List.getD_eq_getElem?_getD, List.getElem?_eq_getElem hi, Option.getD_some]

theorem set_self_eq {todos : List Todo} {i : Nat} (hi : i < todos.length) :
    todos.set i todos[i] = todos := by
  apply List.ext_getElem?
  intro j
  rw [List.getElem?_set]
  split
  · next heq => subst heq; simp [List.getElem?_eq_getElem hi]
  · rfl

/-! ### C4 and C5: add with invalid / valid priority -/

/-- C4: for every title and every priority p not in [1,4], add(title, p)
fails with ValidationError carrying p, and the collection (length and every
record) is unchanged. -/
theorem add_invalid_priority_rejected (todos : List Todo) (now title : String)
    (p : Nat) (hp : ¬(1 ≤ p ∧ p ≤ 4)) :
    TodoManager.add_todo todos now title p = (.error (.validation p), todos) := by
  simp [TodoManager.add_todo, Todo.new, validate_priority_error hp]

/-- Witness for C4 at title "x", priority 0 on a nonempty collection. -/
theorem add_invalid_priority_rejected_witness :
    ¬(1 ≤ 0 ∧ 0 ≤ 4) ∧
    TodoManager.add_todo [dummyTodo] "2024-01-01T00:00:00+00:00" "x" 0 =
      (.error (.validation 0), [dummyTodo]) :=
  ⟨by decide,
   add_invalid_priority_rejected [dummyTodo] "2024-01-01T00:00:00+00:00" "x" 0 (by decide)⟩

/-- C5: for every title and every priority p in [1,4], add(title, p) succeeds
returning the record with the given title, completed = false and priority p,
that record is appended at the end, and the length grows by exactly 1. -/
theorem add_valid_priority_appends (todos : List Todo) (now title : String)
    (p : Nat) (hp : 1 ≤ p ∧ p ≤ 4) :
    TodoManager.add_todo todos now title p =
      (.ok { title := title, completed := false, created_at := now, priority := p },
       todos ++ [{ title := title, completed := false, created_at := now, priority := p }]) ∧
    (TodoManager.add_todo todos now title p).snd.length = todos.length + 1 := by
  have h : TodoManager.add_todo todos now title p =
      (.ok { title := title, completed := false, created_at := now, priority := p },
       todos ++ [{ title := title, completed := false, created_at := now, priority := p }]) := by
    simp [TodoManager.add_todo, Todo.new, validate_priority_ok hp]
  exact ⟨h, by rw [h]; simp⟩

/-- Witness for C5 at title "Buy milk", priority 2 on a nonempty collection. -/
theorem add_valid_priority_appends_witness :
    (1 ≤ 2 ∧ 2 ≤ 4) ∧
    TodoManager.add_todo [dummyTodo] "now" "Buy milk" 2 =
      (.ok { title := "Buy milk", completed := false, created_at := "now", priority := 2 },
       [dummyTodo, { title := "Buy milk", completed := false, created_at := "now", priority := 2 }]) ∧
    (TodoManager.add_todo [dummyTodo] "now" "Buy milk" 2).snd.length = 2 :=
  ⟨by decide,
   (add_valid_priority_appends [dummyTodo] "now" "Buy milk" 2 (by decide)).1,
   (add_valid_priority_appends [dummyTodo] "now" "Buy milk" 2 (by decide)).2⟩

/-! ### C3: NotFoundError exactly on out-of-range indices -/

theorem edit_todo_fst_of_lt (todos : List Todo) (i : Nat)
    (title : Option String) (p : Option Nat) (hi : i < todos.length) :
    (TodoManager.edit_todo todos i title p).fst = .ok () ∨
    ∃ q, p = some q ∧
      (TodoManager.edit_todo todos i title p).fst = .error (.validation q) := by
  unfold TodoManager.edit_todo
  rw [if_neg (not_le.mpr hi)]
  cases p with
  | none => left; rfl
  | some q =>
    by_cases hq : 1 ≤ q ∧ q ≤ 4
    · left
      simp [Todo.set_priority, validate_priority_ok hq]
    · right
      exact ⟨q, rfl, by simp [Todo.set_priority, validate_priority_error hq]⟩

/-- C3: each index-taking operation (edit, mark_completed, mark_incomplete,
toggle, delete) fails with NotFoundError exactly when the index is at least
the collection length; on an empty collection (length 0 ≤ i) every such call
therefore fails with NotFoundError. -/
theorem indexed_ops_notFound_iff (todos : List Todo) (i : Nat)
    (title : Option String) (p : Option Nat) :
    ((TodoManager.edit_todo todos i title p).fst = .error (.notFound i) ↔
      todos.length ≤ i) ∧
    ((TodoManager.mark_completed todos i).fst = .error (.notFound i) ↔
      todos.length ≤ i) ∧
    ((TodoManager.mark_incomplete todos i).fst = .error (.notFound i) ↔
      todos.length ≤ i) ∧
    ((TodoManager.toggle_completed todos i).fst = .error (.notFound i) ↔
      todos.length ≤ i) ∧
    ((TodoManager.delete_todo todos i).fst = .error (.notFound i) ↔
      todos.length ≤ i) := by
  by_cases h : todos.length ≤ i
  · refine ⟨?_, ?_, ?_, ?_, ?_⟩ <;>
      simp [TodoManager.edit_todo, TodoManager.mark_completed,
        TodoManager.mark_incomplete, TodoManager.toggle_completed,
        TodoManager.delete_todo, h]
  · have hi : i < todos.length := not_le.mp h
    refine ⟨?_, ?_, ?_, ?_, ?_⟩
    · rcases edit_todo_fst_of_lt todos i title p hi with hok | ⟨q, _, herr⟩
      · simp [hok, h]
      · simp [herr, h]
    all_goals
      simp [TodoManager.mark_completed, TodoManager.mark_incomplete,
        TodoManager.toggle_completed, TodoManager.delete_todo,
        if_neg (not_le.mpr hi), h]

/-! ### C6: delete removes exactly the record at position i -/

/-- C6: for a valid index i, delete(i) succeeds, the length drops by one,
records before position i stay at their positions, and every record that was
at a position j > i is now at position j - 1. -/
theorem delete_removes_exactly (todos : List Todo) (i : Nat)
    (hi : i < todos.length) :
    (TodoManager.delete_todo todos i).fst = .ok () ∧
    (TodoManager.delete_todo todos i).snd.length = todos.length - 1 ∧
    (∀ j, j < i → (TodoManager.delete_todo todos i).snd[j]? = todos[j]?) ∧
    (∀ j, i < j → j < todos.length →
      (TodoManager.delete_todo todos i).snd[j - 1]? = todos[j]?) := by
  unfold TodoManager.delete_todo
  rw [if_neg (not_le.mpr hi)]
  refine ⟨rfl, ?_, ?_, ?_⟩
  · rw [List.length_eraseIdx, if_pos hi]
  · intro j hj
    rw [List.getElem?_eraseIdx, if_pos hj]
  · intro j hij hj
    rw [List.getElem?_eraseIdx, if_neg (by omega)]
    congr 1
    omega

/-- Witness for C6: deleting index 1 of a three-element collection. -/
theorem delete_removes_exactly_witness :
    (1 < ([dummyTodo, { dummyTodo with title := "b" },
           { dummyTodo with title := "c" }] : List Todo).length) ∧
    (TodoManager.delete_todo [dummyTodo, { dummyTodo with title := "b" },
        { dummyTodo with title := "c" }] 1).fst = .ok () ∧
    (TodoManager.delete_todo [dummyTodo, { dummyTodo with title := "b" },
        { dummyTodo with title := "c" }] 1).snd.length = 3 - 1 ∧
    (∀ j, j < 1 → (TodoManager.delete_todo [dummyTodo, { dummyTodo with title := "b" },
        { dummyTodo with title := "c" }] 1).snd[j]? =
        [dummyTodo, { dummyTodo with title := "b" },
         { dummyTodo with title := "c" }][j]?) ∧
    (∀ j, 1 < j → j < 3 →
      (TodoManager.delete_todo [dummyTodo, { dummyTodo with title := "b" },
          { dummyTodo with title := "c" }] 1).snd[j - 1]? =
        [dummyTodo, { dummyTodo with title := "b" },
         { dummyTodo with title := "c" }][j]?) :=
  ⟨by decide,
   delete_removes_exactly [dummyTodo, { dummyTodo with title := "b" },
     { dummyTodo with title := "c" }] 1 (by decide)⟩

/-! ### C9: toggle twice is the identity on the collection -/

/-- C9: for a valid index i, toggling twice restores the collection exactly,
so in particular the completed flag of record i returns to its original
value; both calls succeed. -/
theorem toggle_twice_involution (todos : List Todo) (i : Nat)
    (hi : i < todos.length) :
    TodoManager.toggle_completed (TodoManager.toggle_completed todos i).snd i =
      (.ok (), todos) := by
  unfold TodoManager.toggle_completed
  rw [if_neg (not_le.mpr hi)]
  have hlen : (todos.set i (todos.getD i dummyTodo).toggle_completed).length =
      todos.length := List.length_set ..
  rw [if_neg (not_le.mpr (by rw [hlen]; exact hi))]
  have hget : (todos.set i (todos.getD i dummyTodo).toggle_completed).getD i dummyTodo =
      (todos.getD i dummyTodo).toggle_completed := by
    rw [List.getD_eq_getElem?_getD, List.getElem?_set_self hi, Option.getD_some]
  rw [hget]
  have htt : ((todos.getD i dummyTodo).toggle_completed).toggle_completed =
      todos.getD i dummyTodo := by
    simp [Todo.toggle_completed]
  rw [htt, List.set_set, getD_eq_getElem hi, set_self_eq hi]

/-- Witness for C9 at index 0 of a singleton collection. -/
theorem toggle_twice_involution_witness :
    (0 < ([dummyTodo] : List Todo).length) ∧
    TodoManager.toggle_completed (TodoManager.toggle_completed [dummyTodo] 0).snd 0 =
      (.ok (), [dummyTodo]) :=
  ⟨by decide, toggle_twice_involution [dummyTodo] 0 (by decide)⟩

/-! ### C10: completion-flag operations only touch the completed flag -/

theorem frameAt_set (todos : List Todo) (i : Nat) (hi : i < todos.length)
    (f : Todo → Todo)
    (hf : ∀ t, (f t).title = t.title ∧ (f t).priority = t.priority ∧
      (f t).created_at = t.created_at) :
    FrameAt todos (todos.set i (f (todos.getD i dummyTodo))) i := by
  refine ⟨List.length_set .., ?_, ?_⟩
  · intro j hj
    exact List.getElem?_set_ne (fun h => hj h.symm)
  · refine ⟨todos[i], f todos[i], List.getElem?_eq_getElem hi, ?_, ?_⟩
    · rw [getD_eq_getElem hi]
      exact List.getElem?_set_self hi
    · exact (hf todos[i]).imp id (fun h => h)

/-- C10: for a valid index i, mark_completed(i), mark_incomplete(i) and
toggle(i) preserve the collection length, every record at a position other
than i, and the title, priority and created_at of the record at i — only its
completed flag can change. -/
theorem completion_ops_frame (todos : List Todo) (i : Nat)
    (hi : i < todos.length) :
    FrameAt todos (TodoManager.mark_completed todos i).snd i ∧
    FrameAt todos (TodoManager.mark_incomplete todos i).snd i ∧
    FrameAt todos (TodoManager.toggle_completed todos i).snd i := by
  unfold TodoManager.mark_completed TodoManager.mark_incomplete
    TodoManager.toggle_completed
  rw [if_neg (not_le.mpr hi), if_neg (not_le.mpr hi), if_neg (not_le.mpr hi)]
  exact ⟨frameAt_set todos i hi (fun t => t.set_completed true)
          (fun t => ⟨rfl, rfl, rfl⟩),
         frameAt_set todos i hi (fun t => t.set_completed false)
          (fun t => ⟨rfl, rfl, rfl⟩),
         frameAt_set todos i hi (fun t => t.toggle_completed)
          (fun t => ⟨rfl, rfl, rfl⟩)⟩

/-- Witness for C10 at index 0 of a singleton collection. -/
theorem completion_ops_frame_witness :
    (0 < ([dummyTodo] : List Todo).length) ∧
    (FrameAt [dummyTodo] (TodoManager.mark_completed [dummyTodo] 0).snd 0 ∧
     FrameAt [dummyTodo] (TodoManager.mark_incomplete [dummyTodo] 0).snd 0 ∧
     FrameAt [dummyTodo] (TodoManager.toggle_completed [dummyTodo] 0).snd 0) :=
  ⟨by decide, completion_ops_frame [dummyTodo] 0 (by decide)⟩

/-! ### C1: edit with invalid priority — the title change IS applied -/

/-- C1 counterexample: editing the single record (title "old") with a new
title "new" and the invalid priority 9 fails with ValidationError, yet the
stored record now has title "new" — the title change was applied, so the
claim that every field is left unchanged is false. -/
theorem edit_invalid_priority_counterexample :
    TodoManager.edit_todo
        [{ title := "old", completed := false,
           created_at := "2024-01-01T00:00:00+00:00", priority := 2 }]
        0 (some "new") (some 9) =
      (.error (.validation 9),
       [{ title := "new", completed := false,
          created_at := "2024-01-01T00:00:00+00:00", priority := 2 }]) ∧
    ({ title := "new", completed := false,
       created_at := "2024-01-01T00:00:00+00:00", priority := 2 } : Todo) ≠
      { title := "old", completed := false,
        created_at := "2024-01-01T00:00:00+00:00", priority := 2 } :=
  ⟨rfl, by decide⟩

/-- C1 amended: for a valid index i, a requested title change and a priority
p outside [1,4], edit(i, Some(title), Some(p)) fails with ValidationError
and leaves the priority, completed flag and created_at of record i and all
other records unchanged, but the requested title change IS applied to record
i (the code assigns the title before validating the priority). -/
theorem edit_invalid_priority_partial (todos : List Todo) (i : Nat)
    (newTitle : String) (p : Nat) (hi : i < todos.length)
    (hp : ¬(1 ≤ p ∧ p ≤ 4)) :
    (TodoManager.edit_todo todos i (some newTitle) (some p)).fst =
      .error (.validation p) ∧
    (TodoManager.edit_todo todos i (some newTitle) (some p)).snd =
      todos.set i { todos[i] with title := newTitle } := by
  unfold TodoManager.edit_todo
  rw [if_neg (not_le.mpr hi)]
  have hget : (todos.set i { todos.getD i dummyTodo with title := newTitle }).getD
      i dummyTodo = { todos.getD i dummyTodo with title := newTitle } := by
    rw [List.getD_eq_getElem?_getD, List.getElem?_set_self hi, Option.getD_some]
  simp only [hget, Todo.set_priority, validate_priority_error hp]
  exact ⟨trivial, by rw [getD_eq_getElem hi]⟩

/-- Witness for the amended C1 at index 0, new title "new", priority 9. -/
theorem edit_invalid_priority_partial_witness :
    (0 < ([dummyTodo] : List Todo).length) ∧ ¬(1 ≤ 9 ∧ 9 ≤ 4) ∧
    ((TodoManager.edit_todo [dummyTodo] 0 (some "new") (some 9)).fst =
       .error (.validation 9) ∧
     (TodoManager.edit_todo [dummyTodo] 0 (some "new") (some 9)).snd =
       ([dummyTodo].set 0 { dummyTodo with title := "new" })) :=
  ⟨by decide, by decide,
   edit_invalid_priority_partial [dummyTodo] 0 "new" 9 (by decide) (by decide)⟩

/-! ### C2: the priority invariant — load does not validate -/

/-- A store file whose single record carries the out-of-range priority 0. -/
def badStoreFile : Json :=
  Json.obj [("todos", Json.arr [Json.obj
    [("title", Json.str "legacy"), ("completed", Json.bool false),
     ("created_at", Json.str "2020-01-01T00:00:00+00:00"),
     ("priority", Json.num 0)]])]

/-- C2 counterexample: construction with load from a store file whose record
has priority 0 succeeds without validation, and that record is then
reachable through get with priority 0 ∉ [1,4]. -/
theorem load_invalid_priority_counterexample :
    TodoManager.load_from_file [] (some badStoreFile) =
      .ok [{ title := "legacy", completed := false,
             created_at := "2020-01-01T00:00:00+00:00", priority := 0 }] ∧
    TodoManager.get_todo
        [{ title := "legacy", completed := false,
           created_at := "2020-01-01T00:00:00+00:00", priority := 0 }] 0 =
      some { title := "legacy", completed := false,
             created_at := "2020-01-01T00:00:00+00:00", priority := 0 } ∧
    ¬(1 ≤ ({ title := "legacy", completed := false,
             created_at := "2020-01-01T00:00:00+00:00",
             priority := 0 } : Todo).priority ∧
      ({ title := "legacy", completed := false,
         created_at := "2020-01-01T00:00:00+00:00",
         priority := 0 } : Todo).priority ≤ 4) :=
  ⟨rfl, rfl, by decide⟩

theorem priorityInv_set {todos : List Todo} {i : Nat} {t : Todo}
    (h : PriorityInv todos) (ht : 1 ≤ t.priority ∧ t.priority ≤ 4) :
    PriorityInv (todos.set i t) := by
  intro x hx
  rcases List.mem_or_eq_of_mem_set hx with hx | rfl
  · exact h x hx
  · exact ht

theorem priorityInv_getD {todos : List Todo} {i : Nat}
    (h : PriorityInv todos) (hi : i < todos.length) :
    1 ≤ (todos.getD i dummyTodo).priority ∧
      (todos.getD i dummyTodo).priority ≤ 4 := by
  rw [getD_eq_getElem hi]
  exact h _ (List.getElem_mem hi)

theorem priorityInv_applyOp (todos : List Todo) (op : Op)
    (h : PriorityInv todos) : PriorityInv (applyOp todos op) := by
  cases op with
  | add now title p =>
    simp only [applyOp, TodoManager.add_todo, Todo.new]
    by_cases hp : 1 ≤ p ∧ p ≤ 4
    · rw [validate_priority_ok hp]
      intro t ht
      rcases List.mem_append.mp ht with ht | ht
      · exact h t ht
      · rcases List.mem_singleton.mp ht with rfl
        exact hp
    · rw [validate_priority_error hp]
      exact h
  | edit id title p =>
    simp only [applyOp, TodoManager.edit_todo]
    by_cases hid : id ≥ todos.length
    · rw [if_pos hid]; exact h
    · rw [if_neg hid]
      have hi : id < todos.length := not_le.mp hid
      have h1 : PriorityInv (match title with
          | some newTitle =>
            todos.set id { todos.getD id dummyTodo with title := newTitle }
          | none => todos) := by
        cases title with
        | none => exact h
        | some newTitle =>
          exact priorityInv_set h (priorityInv_getD h hi)
      cases p with
      | none => exact h1
      | some q =>
        simp only [Todo.set_priority]
        by_cases hq : 1 ≤ q ∧ q ≤ 4
        · rw [validate_priority_ok hq]
          exact priorityInv_set h1 hq
        · rw [validate_priority_error hq]
          exact h1
  | mark_completed id =>
    simp only [applyOp, TodoManager.mark_completed]
    by_cases hid : id ≥ todos.length
    · rw [if_pos hid]; exact h
    · rw [if_neg hid]
      exact priorityInv_set h (priorityInv_getD h (not_le.mp hid))
  | mark_incomplete id =>
    simp only [applyOp, TodoManager.mark_incomplete]
    by_cases hid : id ≥ todos.length
    · rw [if_pos hid]; exact h
    · rw [if_neg hid]
      exact priorityInv_set h (priorityInv_getD h (not_le.mp hid))
  | toggle id =>
    simp only [applyOp, TodoManager.toggle_completed]
    by_cases hid : id ≥ todos.length
    · rw [if_pos hid]; exact h
    · rw [if_neg hid]
      exact priorityInv_set h (priorityInv_getD h (not_le.mp hid))
  | delete id =>
    simp only [applyOp, TodoManager.delete_todo]
    by_cases hid : id ≥ todos.length
    · rw [if_pos hid]; exact h
    · rw [if_neg hid]
      exact fun t ht => h t (List.mem_of_mem_eraseIdx ht)

/-- C2 amended: the priority invariant holds for every record reachable via
list or get after any sequence of public operations, PROVIDED the initial
collection (empty, or as loaded) already satisfies it; loading itself does
not validate priorities, so a malformed store file can break the invariant
(see the counterexample). -/
theorem priority_invariant (init : List Todo) (ops : List Op)
    (hinit : PriorityInv init) :
    PriorityInv (TodoManager.list_todos (runOps init ops)) ∧
    ∀ i t, TodoManager.get_todo (runOps init ops) i = some t →
      1 ≤ t.priority ∧ t.priority ≤ 4 := by
  have hrun : PriorityInv (runOps init ops) := by
    induction ops generalizing init with
    | nil => exact hinit
    | cons op rest ih =>
      exact ih (applyOp init op) (priorityInv_applyOp init op hinit)
  exact ⟨hrun, fun i t ht => hrun t (List.getElem?_mem ht)⟩

/-- A small demonstration trace touching every operation kind. -/
def demoOps : List Op :=
  [Op.add "2024-01-01T00:00:00+00:00" "a" 2,
   Op.add "2024-01-02T00:00:00+00:00" "b" 4,
   Op.edit 0 (some "a2") (some 1),
   Op.edit 0 none (some 9),
   Op.mark_completed 0, Op.mark_incomplete 1, Op.toggle 0,
   Op.delete 1, Op.delete 5]

/-- Witness for the amended C2: running the demonstration trace from the
empty collection keeps every reachable priority in [1,4]. -/
theorem priority_invariant_witness :
    PriorityInv [] ∧
    (PriorityInv (TodoManager.list_todos (runOps [] demoOps)) ∧
     ∀ i t, TodoManager.get_todo (runOps [] demoOps) i = some t →
       1 ≤ t.priority ∧ t.priority ≤ 4) :=
  ⟨by decide, priority_invariant [] demoOps (by decide)⟩

/-! ### C7: save followed by load is the identity -/

theorem getField_toJsonTodo_title (t : Todo) :
    (toJsonTodo t).getField "title" = some (.str t.title) := rfl

theorem getField_toJsonTodo_completed (t : Todo) :
    (toJsonTodo t).getField "completed" = some (.bool t.completed) := rfl

theorem getField_toJsonTodo_created_at (t : Todo) :
    (toJsonTodo t).getField "created_at" = some (.str t.created_at) := rfl

theorem getField_toJsonTodo_priority (t : Todo) :
    (toJsonTodo t).getField "priority" = some (.num (Int.ofNat t.priority)) := rfl

theorem fromJsonTodo_toJsonTodo (t : Todo) (ht : t.priority < 256) :
    fromJsonTodo (toJsonTodo t) = .ok t := by
  have hp : (0 : Int) ≤ Int.ofNat t.priority ∧ Int.ofNat t.priority ≤ 255 := by
    exact ⟨Int.ofNat_nonneg _, Int.ofNat_le.mpr (Nat.lt_succ_iff.mp ht)⟩
  show (if 0 ≤ Int.ofNat t.priority ∧ Int.ofNat t.priority ≤ 255 then
      Except.ok { title := t.title, completed := t.completed,
                  created_at := t.created_at,
                  priority := (Int.ofNat t.priority).toNat }
    else Except.error (TTError.parse "invalid value: integer out of range for u8")) =
    Except.ok t
  rw [if_pos hp]
  rfl

theorem fromJsonTodos_map_toJsonTodo (todos : List Todo)
    (h : ∀ t ∈ todos, t.priority < 256) :
    fromJsonTodos (todos.map toJsonTodo) = .ok todos := by
  induction todos with
  | nil => rfl
  | cons t rest ih =>
    rw [List.map_cons, fromJsonTodos,
      fromJsonTodo_toJsonTodo t (h t (List.mem_cons_self t rest)),
      ih (fun x hx => h x (List.mem_cons_of_mem t hx))]

/-- C7: saving any collection of records (u8 priorities, hence < 256) and
loading from the resulting store file returns exactly the same collection:
same order, titles, completed flags, priorities and created_at timestamps. -/
theorem save_load_round_trip (prev todos : List Todo)
    (h : ∀ t ∈ todos, t.priority < 256) :
    TodoManager.load_from_file prev (some (TodoManager.save_to_file todos)) =
      .ok todos := by
  have hstore : fromJsonStore (TodoManager.save_to_file todos) = .ok todos := by
    rw [TodoManager.save_to_file, fromJsonStore]
    exact fromJsonTodos_map_toJsonTodo todos h
  rw [TodoManager.load_from_file, hstore]

/-- Witness for C7 on a concrete two-record collection. -/
theorem save_load_round_trip_witness :
    (∀ t ∈ [{ title := "a", completed := true,
              created_at := "2024-01-01T00:00:00+00:00", priority := 3 },
            { title := "b", completed := false,
              created_at := "2024-01-02T00:00:00+00:00", priority := 1 }] ,
      Todo.priority t < 256) ∧
    TodoManager.load_from_file []
        (some (TodoManager.save_to_file
          [{ title := "a", completed := true,
             created_at := "2024-01-01T00:00:00+00:00", priority := 3 },
           { title := "b", completed := false,
             created_at := "2024-01-02T00:00:00+00:00", priority := 1 }])) =
      .ok [{ title := "a", completed := true,
             created_at := "2024-01-01T00:00:00+00:00", priority := 3 },
           { title := "b", completed := false,
             created_at := "2024-01-02T00:00:00+00:00", priority := 1 }] :=
  ⟨by decide,
   save_load_round_trip []
     [{ title := "a", completed := true,
        created_at := "2024-01-01T00:00:00+00:00", priority := 3 },
      { title := "b", completed := false,
        created_at := "2024-01-02T00:00:00+00:00", priority := 1 }]
     (by decide)⟩

/-! ### C8: records without a priority field load with priority 4 -/

theorem fromJsonTodo_priority_default {j : Json} {t : Todo}
    (h : fromJsonTodo j = .ok t) (hnone : j.getField "priority" = none) :
    t.priority = 4 := by
  rw [fromJsonTodo] at h
  repeat' split at h
  all_goals try simp_all [default_priority]
  subst h
  rfl

theorem fromJsonTodos_priority_default {recs : List Json} {todos : List Todo}
    (h : fromJsonTodos recs = .ok todos)
    (hnone : ∀ r ∈ recs, r.getField "priority" = none) :
    ∀ t ∈ todos, t.priority = 4 := by
  induction recs generalizing todos with
  | nil =>
    cases h
    intro t ht
    cases ht
  | cons r rest ih =>
    rw [fromJsonTodos] at h
    rcases hr : fromJsonTodo r with e | t0
    · rw [hr] at h; simp at h
    rw [hr] at h
    rcases hrest : fromJsonTodos rest with e | ts
    · rw [hrest] at h; simp at h
    rw [hrest] at h
    simp only [] at h
    cases h
    intro t ht
    rcases List.mem_cons.mp ht with rfl | ht
    · exact fromJsonTodo_priority_default hr (hnone r (List.mem_cons_self r rest))
    · exact ih hrest (fun x hx => hnone x (List.mem_cons_of_mem r hx)) t ht

/-- C8: loading a store file whose record objects all omit the priority key
yields priority 4 (the backward-compatibility default) for every loaded
record. -/
theorem load_omitted_priority_defaults (prev : List Todo) (file : Json)
    (recs : List Json) (todos : List Todo)
    (hstore : file.getField "todos" = some (Json.arr recs))
    (homit : ∀ r ∈ recs, r.getField "priority" = none)
    (hload : TodoManager.load_from_file prev (some file) = .ok todos) :
    ∀ t ∈ todos, t.priority = 4 := by
  have h1 : fromJsonStore file = fromJsonTodos recs := by
    rw [fromJsonStore, hstore]
  rw [TodoManager.load_from_file, h1] at hload
  rcases hrecs : fromJsonTodos recs with e | ts
  · rw [hrecs] at hload; simp at hload
  rw [hrecs] at hload
  simp only [Except.ok.injEq] at hload
  subst hload
  exact fromJsonTodos_priority_default hrecs homit

/-- A legacy record object with no priority key. -/
def legacyRec : Json :=
  Json.obj [("title", Json.str "old task"), ("completed", Json.bool true),
            ("created_at", Json.str "2019-05-05T00:00:00+00:00")]

/-- A legacy store file holding only `legacyRec`. -/
def legacyStoreFile : Json := Json.obj [("todos", Json.arr [legacyRec])]

/-- Witness for C8: loading the legacy store file yields one record with
priority 4. -/
theorem load_omitted_priority_defaults_witness :
    TodoManager.load_from_file [] (some legacyStoreFile) =
      .ok [{ title := "old task", completed := true,
             created_at := "2019-05-05T00:00:00+00:00", priority := 4 }] ∧
    ({ title := "old task", completed := true,
       created_at := "2019-05-05T00:00:00+00:00", priority := 4 } : Todo).priority = 4 :=
  ⟨rfl,
   load_omitted_priority_defaults [] legacyStoreFile [legacyRec]
     [{ title := "old task", completed := true,
        created_at := "2019-05-05T00:00:00+00:00", priority := 4 }]
     rfl
     (by
       intro r hr
       rcases List.mem_singleton.mp hr with rfl
       rfl)
     rfl
     { title := "old task", completed := true,
       created_at := "2019-05-05T00:00:00+00:00", priority := 4 }
     (List.mem_singleton.mpr rfl)⟩
